import Mathlib

/-!
Shallow embedding of the inertial dead-reckoning estimator of
src/imu_dead_reckoning.py (classes IMUDeadReckoningFixed and
AdvancedTrailTracker), with Python floats modelled as real numbers.
Definitions mirror the source line by line; theorems below settle the
specification claims against them.
-/

namespace ImuDP

noncomputable section

/-- A 3-component sensor vector (numpy arrays of length 3 in the source). -/
structure Vec3 where
  x : ℝ
  y : ℝ
  z : ℝ
deriving DecidableEq

/-- A 2-component world-frame vector (numpy arrays of length 2 in the source). -/
structure Vec2 where
  x : ℝ
  y : ℝ
deriving DecidableEq

def v3add (a b : Vec3) : Vec3 := ⟨a.x + b.x, a.y + b.y, a.z + b.z⟩

def v3sub (a b : Vec3) : Vec3 := ⟨a.x - b.x, a.y - b.y, a.z - b.z⟩

def v3smul (c : ℝ) (a : Vec3) : Vec3 := ⟨c * a.x, c * a.y, c * a.z⟩

/-- np.linalg.norm of a 3-vector. -/
def vnorm3 (a : Vec3) : ℝ := Real.sqrt (a.x ^ 2 + a.y ^ 2 + a.z ^ 2)

/-- np.linalg.norm of a 2-vector. -/
def vnorm2 (a : Vec2) : ℝ := Real.sqrt (a.x ^ 2 + a.y ^ 2)

/-- collections.deque with maxlen: append on the right, evict from the left
when the capacity is exceeded. -/
def pushBuf (cap : ℕ) (l : List ℝ) (v : ℝ) : List ℝ :=
  let l' := l ++ [v]
  if cap < l'.length then l'.drop (l'.length - cap) else l'

/-- np.mean of a 1-d array. -/
def npMean (l : List ℝ) : ℝ := l.sum / l.length

/-- np.std of a 1-d array (population standard deviation, ddof = 0). -/
def npStd (l : List ℝ) : ℝ :=
  Real.sqrt ((l.map (fun v => (v - npMean l) ^ 2)).sum / l.length)

/-- np.max of a nonempty array (0 as a junk value on the empty list,
which the source never evaluates). -/
def listMax : List ℝ → ℝ
  | [] => 0
  | a :: r => r.foldl max a

/-- np.min of a nonempty array (0 as a junk value on the empty list). -/
def listMin : List ℝ → ℝ
  | [] => 0
  | a :: r => r.foldl min a

/-- math.atan2 over the reals, as the argument of the complex number x + y i. -/
def atan2 (y x : ℝ) : ℝ := Complex.arg ⟨x, y⟩

/-- IMUDeadReckoningFixed._wrap_angle: atan2(sin(angle), cos(angle)). -/
def wrap_angle (angle : ℝ) : ℝ := atan2 (Real.sin angle) (Real.cos angle)

/-- IMUDeadReckoningFixed._clamp_speed. -/
def clamp_speed (v : Vec2) (max_speed : ℝ) : Vec2 :=
  let speed := vnorm2 v
  if max_speed < speed then ⟨v.x * (max_speed / speed), v.y * (max_speed / speed)⟩ else v

/-- math.degrees. -/
def degrees (r : ℝ) : ℝ := r * 180 / Real.pi

/-- Python float modulo (sign follows the divisor; used only with divisor 360). -/
def pymod (a b : ℝ) : ℝ := a - b * (⌊a / b⌋ : ℤ)

/-- One entry of IMUDeadReckoningFixed.history (the dict appended each
integrated sample). -/
structure TrailPoint where
  t : ℝ
  pos_x : ℝ
  pos_y : ℝ
  vel_x : ℝ
  vel_y : ℝ
  speed : ℝ
  acc_mag : ℝ
  gyro_mag : ℝ
  is_stationary : Bool
  heading_deg : ℝ

/-- The dict returned by IMUDeadReckoningFixed.get_state. -/
structure StateSnapshot where
  pos_x : ℝ
  pos_y : ℝ
  vx : ℝ
  vy : ℝ
  speed : ℝ
  heading_rad : ℝ
  heading_deg : ℝ
  is_stationary : Bool
  last_timestamp : Option ℝ

/-- One call's worth of sensor arguments to IMUDeadReckoningFixed.update. -/
structure Sample where
  accel : Vec3
  gyro : Vec3
  ts : ℝ
  mag_x : Option ℝ := none
  mag_y : Option ℝ := none
  mag_z : Option ℝ := none

/-- The mutable attributes of an IMUDeadReckoningFixed instance. -/
structure State where
  position : Vec2
  velocity : Vec2
  heading : ℝ
  last_timestamp : Option ℝ
  origin : Vec2
  snap_to_origin_radius : Option ℝ
  sample_hz : ℝ
  win_len : ℕ
  accel_mag_buf : List ℝ
  gyro_mag_buf : List ℝ
  accel_bias : Vec3
  gyro_bias : Vec3
  gravity : Vec3
  gravity_alpha : ℝ
  hp_state : Vec3
  hp_alpha : ℝ
  mag_alpha : ℝ
  accel_std_threshold : ℝ
  gyro_std_threshold : ℝ
  stationary_required_windows : ℕ
  threshold_peaks_gravity : ℝ
  threshold_peaks_user_acc : ℝ
  user_acc_threshold : ℝ
  user_gravity_threshold_x : ℝ
  user_gravity_threshold_y : ℝ
  gravity_buf : List ℝ
  user_acc_buf : List ℝ
  gravity_x_buf : List ℝ
  gravity_y_buf : List ℝ
  stationary_windows : ℕ
  is_stationary : Bool
  last_motion_time : Option ℝ
  no_motion_timeout : ℝ
  velocity_damping : ℝ
  velocity_threshold : ℝ
  max_speed : ℝ
  history : List TrailPoint

/-- IMUDeadReckoningFixed.__init__. -/
def initState (initial_position : Vec2) (initial_heading_rad : ℝ)
    (sample_rate_hz : ℝ) : State :=
  { position := initial_position
    velocity := ⟨0, 0⟩
    heading := initial_heading_rad
    last_timestamp := none
    origin := initial_position
    snap_to_origin_radius := some 0.5
    sample_hz := sample_rate_hz
    win_len := max 4 (round (sample_rate_hz * 0.5)).toNat
    accel_mag_buf := []
    gyro_mag_buf := []
    accel_bias := ⟨0, 0, 0⟩
    gyro_bias := ⟨0, 0, 0⟩
    gravity := ⟨0, 0, 9.81⟩
    gravity_alpha := 0.995
    hp_state := ⟨0, 0, 0⟩
    hp_alpha := 0.92
    mag_alpha := 0.25
    accel_std_threshold := 0.15
    gyro_std_threshold := 1.2 * (Real.pi / 180)
    stationary_required_windows := 2
    threshold_peaks_gravity := 0.35
    threshold_peaks_user_acc := 0.35
    user_acc_threshold := 0.15
    user_gravity_threshold_x := 0.7
    user_gravity_threshold_y := 0.7
    gravity_buf := []
    user_acc_buf := []
    gravity_x_buf := []
    gravity_y_buf := []
    stationary_windows := 0
    is_stationary := false
    last_motion_time := none
    no_motion_timeout := 3.0
    velocity_damping := 0.7
    velocity_threshold := 0.03
    max_speed := 4.0
    history := [] }

/-- IMUDeadReckoningFixed.get_state (note the Python truthiness test on
last_timestamp: a stored 0.0 is reported as None). -/
def get_state (s : State) : StateSnapshot :=
  { pos_x := s.position.x
    pos_y := s.position.y
    vx := s.velocity.x
    vy := s.velocity.y
    speed := vnorm2 s.velocity
    heading_rad := s.heading
    heading_deg := pymod (degrees s.heading) 360
    is_stationary := s.is_stationary
    last_timestamp :=
      match s.last_timestamp with
      | some t => if t = 0 then none else some t
      | none => none }

/-!
Lines 147-278 of update: raw vectors, bias removal, rolling buffers,
windowed statistics, stationary classification, and the stationary (ZUPT)
versus moving (integration) branch. The Python local variables are named
top-level definitions here so that theorems can speak about them.
-/

/-- acc_unbiased = raw_acc - self.accel_bias. -/
def acc_unbiased (s : State) (m : Sample) : Vec3 := v3sub m.accel s.accel_bias

/-- gyro_unbiased = raw_gyro - self.gyro_bias. -/
def gyro_unbiased (s : State) (m : Sample) : Vec3 := v3sub m.gyro s.gyro_bias

/-- acc_mag = np.linalg.norm(acc_unbiased). -/
def acc_mag (s : State) (m : Sample) : ℝ := vnorm3 (acc_unbiased s m)

/-- gyro_mag = np.linalg.norm(gyro_unbiased). -/
def gyro_mag (s : State) (m : Sample) : ℝ := vnorm3 (gyro_unbiased s m)

/-- user_acc_mag = np.linalg.norm(acc_unbiased - self.gravity). -/
def user_acc_mag (s : State) (m : Sample) : ℝ := vnorm3 (v3sub (acc_unbiased s m) s.gravity)

/-- The six rolling buffers after this sample's values are pushed. -/
def accel_mag_buf' (s : State) (m : Sample) : List ℝ :=
  pushBuf s.win_len s.accel_mag_buf (acc_mag s m)

def gyro_mag_buf' (s : State) (m : Sample) : List ℝ :=
  pushBuf s.win_len s.gyro_mag_buf (gyro_mag s m)

def gravity_buf' (s : State) (m : Sample) : List ℝ :=
  pushBuf s.win_len s.gravity_buf (vnorm3 s.gravity)

def user_acc_buf' (s : State) (m : Sample) : List ℝ :=
  pushBuf s.win_len s.user_acc_buf (user_acc_mag s m)

def gravity_x_buf' (s : State) (m : Sample) : List ℝ :=
  pushBuf s.win_len s.gravity_x_buf |s.gravity.x|

def gravity_y_buf' (s : State) (m : Sample) : List ℝ :=
  pushBuf s.win_len s.gravity_y_buf |s.gravity.y|

/-- Windowed standard deviations (0.0 until the accel buffer fills to
max(3, win_len // 2) entries). -/
def a_std (s : State) (m : Sample) : ℝ :=
  if max 3 (s.win_len / 2) ≤ (accel_mag_buf' s m).length then npStd (accel_mag_buf' s m) else 0

def g_std (s : State) (m : Sample) : ℝ :=
  if max 3 (s.win_len / 2) ≤ (accel_mag_buf' s m).length then npStd (gyro_mag_buf' s m) else 0

/-- ReckonMe-style peak-to-peak detection flags. -/
def gravity_has_peak (s : State) (m : Sample) : Prop :=
  3 ≤ (gravity_buf' s m).length ∧
    s.threshold_peaks_gravity < listMax (gravity_buf' s m) - listMin (gravity_buf' s m)

def user_acc_has_peak (s : State) (m : Sample) : Prop :=
  3 ≤ (user_acc_buf' s m).length ∧
    s.threshold_peaks_user_acc < listMax (user_acc_buf' s m) - listMin (user_acc_buf' s m)

instance gravity_has_peak_dec (s : State) (m : Sample) : Decidable (gravity_has_peak s m) := by
  unfold gravity_has_peak
  infer_instance

instance user_acc_has_peak_dec (s : State) (m : Sample) : Decidable (user_acc_has_peak s m) := by
  unfold user_acc_has_peak
  infer_instance

/-- The conjunction of lines 210-218 deciding a stationary candidate. -/
def is_stationary_candidate (s : State) (m : Sample) : Prop :=
  a_std s m < s.accel_std_threshold ∧
  g_std s m < s.gyro_std_threshold ∧
  ¬gravity_has_peak s m ∧
  ¬user_acc_has_peak s m ∧
  ¬(s.user_acc_threshold < user_acc_mag s m) ∧
  ¬(s.user_gravity_threshold_x < |s.gravity.x|) ∧
  ¬(s.user_gravity_threshold_y < |s.gravity.y|)

instance is_stationary_candidate_dec (s : State) (m : Sample) :
    Decidable (is_stationary_candidate s m) := by
  unfold is_stationary_candidate
  infer_instance

/-- The consecutive-stationary-window counter after this sample. -/
def stationary_windows' (s : State) (m : Sample) : ℕ :=
  if is_stationary_candidate s m then s.stationary_windows + 1 else 0

/-- The stationary classification after this sample. -/
def stationary_flag (s : State) (m : Sample) : Bool :=
  decide (s.stationary_required_windows ≤ stationary_windows' s m)

/-- The state with the rolling buffers, counter and flag stored (common to
both branches). -/
def sbase (s : State) (m : Sample) : State :=
  { s with
    accel_mag_buf := accel_mag_buf' s m
    gyro_mag_buf := gyro_mag_buf' s m
    gravity_buf := gravity_buf' s m
    user_acc_buf := user_acc_buf' s m
    gravity_x_buf := gravity_x_buf' s m
    gravity_y_buf := gravity_y_buf' s m
    stationary_windows := stationary_windows' s m
    is_stationary := stationary_flag s m }

/-- Lines 229-242: the stationary (ZUPT) branch. -/
def zuptBranch (s : State) (m : Sample) : State :=
  { sbase s m with
    gyro_bias :=
      if 0 < (gyro_mag_buf' s m).length then
        v3add (v3smul 0.99 s.gyro_bias) (v3smul (1 - 0.99) m.gyro)
      else s.gyro_bias
    velocity := ⟨0, 0⟩
    gravity := v3add (v3smul s.gravity_alpha s.gravity)
      (v3smul (1 - s.gravity_alpha) (acc_unbiased s m))
    last_motion_time := some m.ts }

/-- Line 248-249: the conditional gravity adaptation while moving. -/
def gravity_moving (s : State) (m : Sample) : Vec3 :=
  if |acc_mag s m - 9.81| < 1.5 ∧ gyro_mag s m < 5.0 * s.gyro_std_threshold then
    v3add (v3smul s.gravity_alpha s.gravity) (v3smul (1 - s.gravity_alpha) (acc_unbiased s m))
  else s.gravity

/-- Line 255: the updated high-pass filter memory. -/
def hp_state' (s : State) (m : Sample) : Vec3 :=
  v3add (v3smul s.hp_alpha s.hp_state)
    (v3smul (1 - s.hp_alpha) (v3sub (acc_unbiased s m) (gravity_moving s m)))

/-- Lines 244-278: the moving branch (gravity adaptation, high-pass filter,
rotation to world frame, deadzone, velocity integration, damping, clamp). -/
def motionBranch (s : State) (m : Sample) (dt : ℝ) : State :=
  let accel_hp := v3sub (v3sub (acc_unbiased s m) (gravity_moving s m)) (hp_state' s m)
  let cos_h := Real.cos s.heading
  let sin_h := Real.sin s.heading
  let ax_world := accel_hp.x * cos_h - accel_hp.y * sin_h
  let ay_world := accel_hp.x * sin_h + accel_hp.y * cos_h
  let ax_dz := if |ax_world| < 0.01 then 0 else ax_world
  let ay_dz := if |ay_world| < 0.01 then 0 else ay_world
  let v1 : Vec2 := ⟨s.velocity.x + ax_dz * dt, s.velocity.y + ay_dz * dt⟩
  let damp := 1 - (1 - s.velocity_damping) * dt * 10.0
  let v2 : Vec2 := ⟨v1.x * damp, v1.y * damp⟩
  { sbase s m with
    gravity := gravity_moving s m
    hp_state := hp_state' s m
    velocity := clamp_speed v2 s.max_speed
    last_motion_time := some m.ts }

/-- Lines 147-278 of update combined. -/
def stepA (s : State) (m : Sample) (dt : ℝ) : State :=
  if stationary_flag s m then zuptBranch s m else motionBranch s m dt

/-- Lines 280-297 of update: gyro yaw integration with wrap, then optional
magnetometer fusion. The gyro rate gz was unbiased against the pre-update
gyro bias, so it is passed in explicitly. -/
def stepHeadingMag (gz : ℝ) (dt : ℝ) (m : Sample) (s : State) : State :=
  let h1 := wrap_angle (s.heading + gz * dt)
  match m.mag_x, m.mag_y, m.mag_z with
  | some mx, some my, some _ =>
    let mag_heading := atan2 my mx
    if s.is_stationary then { s with heading := wrap_angle mag_heading }
    else { s with heading := wrap_angle ((1 - s.mag_alpha) * h1 + s.mag_alpha * mag_heading) }
  | _, _, _ => { s with heading := h1 }

/-- Lines 299-301 of update: the no-motion timeout hard stop. -/
def timeoutCheck (ts : ℝ) (s : State) : State :=
  if s.no_motion_timeout < ts - (s.last_motion_time.getD ts) then
    { s with velocity := ⟨0, 0⟩ }
  else s

/-- Lines 303-306 of update: the low-velocity cutoff. -/
def cutoffCheck (s : State) : State :=
  if vnorm2 s.velocity < s.velocity_threshold then { s with velocity := ⟨0, 0⟩ } else s

/-- Line 310 of update: position integration. -/
def posIntegrate (dt : ℝ) (s : State) : State :=
  { s with position := ⟨s.position.x + s.velocity.x * dt, s.position.y + s.velocity.y * dt⟩ }

/-- Lines 314-317 of update: optional snap to origin while stationary. -/
def snapCheck (s : State) : State :=
  if s.is_stationary then
    match s.snap_to_origin_radius with
    | some r =>
      if vnorm2 ⟨s.position.x - s.origin.x, s.position.y - s.origin.y⟩ < r then
        { s with position := s.origin }
      else s
    | none => s
  else s

/-- Lines 320-331 of update: append the diagnostics dict to history. -/
def historyAppend (ts acc_mag gyro_mag : ℝ) (s : State) : State :=
  { s with history := s.history ++
      [{ t := ts
         pos_x := s.position.x
         pos_y := s.position.y
         vel_x := s.velocity.x
         vel_y := s.velocity.y
         speed := vnorm2 s.velocity
         acc_mag := acc_mag
         gyro_mag := gyro_mag
         is_stationary := s.is_stationary
         heading_deg := pymod (degrees s.heading) 360 }] }

/-- Lines 147-335 of update: the full body run on a sample whose dt passed
the validity test. -/
def integrate (s : State) (m : Sample) (dt : ℝ) : State :=
  let sA := stepA s m dt
  let sB := stepHeadingMag (gyro_unbiased s m).z dt m sA
  let sC := timeoutCheck m.ts sB
  let sD := cutoffCheck sC
  let sE := posIntegrate dt sD
  let sF := snapCheck sE
  let sG := historyAppend m.ts (acc_mag s m) (gyro_mag s m) sF
  { sG with last_timestamp := some m.ts }

/-- IMUDeadReckoningFixed.update: returns the mutated instance state together
with the returned snapshot. -/
def update (s : State) (m : Sample) : State × StateSnapshot :=
  match s.last_timestamp with
  | none =>
    let s' := { s with
      last_timestamp := some m.ts
      last_motion_time := some m.ts
      gravity := m.accel }
    (s', get_state s')
  | some lastT =>
    let dt := m.ts - lastT
    if dt ≤ 0 ∨ 1 < dt then
      let s' := { s with last_timestamp := some m.ts }
      (s', get_state s')
    else
      let s' := integrate s m dt
      (s', get_state s')

/-- AdvancedTrailTracker instance attributes. -/
structure Tracker where
  expected_hz : ℝ
  imu : State
  accel_move_threshold : ℝ
  accel_deadzone : ℝ
  velocity_threshold : ℝ
  stationary_threshold : ℝ
  velocity_damping : ℝ

/-- AdvancedTrailTracker.__init__. -/
def initTracker (expected_hz : ℝ) : Tracker :=
  let imu := initState ⟨0, 0⟩ 0 expected_hz
  { expected_hz := expected_hz
    imu := imu
    accel_move_threshold := 0.1
    accel_deadzone := 0.01
    velocity_threshold := imu.velocity_threshold
    stationary_threshold := imu.accel_std_threshold
    velocity_damping := imu.velocity_damping }

/-- AdvancedTrailTracker.update: forwards to the wrapped estimator with
gyro_x = gyro_y = 0 and returns its state dict. -/
def trackerUpdate (tr : Tracker) (accel_x accel_y accel_z gyro_z timestamp : ℝ)
    (mag_x mag_y mag_z : Option ℝ) : Tracker × StateSnapshot :=
  let r := update tr.imu
    { accel := ⟨accel_x, accel_y, accel_z⟩
      gyro := ⟨0, 0, gyro_z⟩
      ts := timestamp
      mag_x := mag_x
      mag_y := mag_y
      mag_z := mag_z }
  ({ tr with imu := r.1 }, r.2)

/-- A run of the estimator over a list of samples, oldest first. -/
def runList (s : State) (ms : List Sample) : State :=
  ms.foldl (fun st m => (update st m).1) s

/-- Quaternion on raw 4-tuples, per spec section 4.4 and Design Notes
(the quaternion-based orientation integrator, class MadgwickDeadReckoning,
is referenced by the source file but omitted from the provided sources). -/
structure Quat where
  w : ℝ
  x : ℝ
  y : ℝ
  z : ℝ

def qnormSq (q : Quat) : ℝ := q.w ^ 2 + q.x ^ 2 + q.y ^ 2 + q.z ^ 2

def qnorm (q : Quat) : ℝ := Real.sqrt (qnormSq q)

/-- Hamilton product. -/
def qmul (p q : Quat) : Quat :=
  ⟨p.w * q.w - p.x * q.x - p.y * q.y - p.z * q.z,
   p.w * q.x + p.x * q.w + p.y * q.z - p.z * q.y,
   p.w * q.y - p.x * q.z + p.y * q.w + p.z * q.x,
   p.w * q.z + p.x * q.y - p.y * q.x + p.z * q.w⟩

/-- Quaternion normalization with the epsilon guard of spec section 7(b):
degenerate near-zero norms default to a no-op instead of dividing. -/
def qnormalize (q : Quat) : Quat :=
  if qnorm q ≤ 1e-12 then q
  else ⟨q.w / qnorm q, q.x / qnorm q, q.y / qnorm q, q.z / qnorm q⟩

/-- Modelled from the spec: section 4.4 item 1 of the Orientation Integrator
(missing from src/: the quaternion code, class MadgwickDeadReckoning, is only
referenced by a comment in src/imu_dead_reckoning.py). Per the spec: build an
incremental rotation quaternion from gyro times dt over 2, normalize, multiply
into the running orientation, renormalize. -/
def orientationStep (q : Quat) (gyro : Vec3) (dt : ℝ) : Quat :=
  qnormalize (qmul q (qnormalize ⟨1, gyro.x * dt / 2, gyro.y * dt / 2, gyro.z * dt / 2⟩))

/-- The orientation quaternion after a sequence of update calls, starting from
the identity orientation. -/
def orientationRun (steps : List (Vec3 × ℝ)) : Quat :=
  steps.foldl (fun q gd => orientationStep q gd.1 gd.2) ⟨1, 0, 0, 0⟩

/-! ### Stage bookkeeping lemmas -/

theorem stepHeadingMag_shape (gz dt : ℝ) (m : Sample) (s : State) :
    ∃ h, stepHeadingMag gz dt m s = { s with heading := h } := by
  obtain ⟨acc, gy, t, mx, my, mz⟩ := m
  unfold stepHeadingMag
  cases mx <;> cases my <;> cases mz <;> dsimp only <;> try exact ⟨_, rfl⟩
  split_ifs <;> exact ⟨_, rfl⟩

theorem stepHeadingMag_heading_mem (gz dt : ℝ) (m : Sample) (s : State) :
    (stepHeadingMag gz dt m s).heading ∈ Set.Ioc (-Real.pi) Real.pi := by
  obtain ⟨acc, gy, t, mx, my, mz⟩ := m
  unfold stepHeadingMag
  cases mx <;> cases my <;> cases mz <;> dsimp only <;>
    first
      | exact Complex.arg_mem_Ioc _
      | (split_ifs <;> exact Complex.arg_mem_Ioc _)

theorem timeoutCheck_shape (ts : ℝ) (s : State) :
    timeoutCheck ts s = s ∨ timeoutCheck ts s = { s with velocity := ⟨0, 0⟩ } := by
  unfold timeoutCheck
  split_ifs <;> simp

theorem cutoffCheck_shape (s : State) :
    cutoffCheck s = s ∨ cutoffCheck s = { s with velocity := ⟨0, 0⟩ } := by
  unfold cutoffCheck
  split_ifs <;> simp

theorem snapCheck_shape (s : State) :
    snapCheck s = s ∨ snapCheck s = { s with position := s.origin } := by
  unfold snapCheck
  split_ifs with h
  · cases hr : s.snap_to_origin_radius with
    | none => left; rfl
    | some r =>
      dsimp only
      split_ifs with h2
      · right; rfl
      · left; rfl
  · left; rfl

theorem timeoutCheck_heading (ts : ℝ) (s : State) :
    (timeoutCheck ts s).heading = s.heading := by
  rcases timeoutCheck_shape ts s with h | h <;> rw [h]

theorem cutoffCheck_heading (s : State) : (cutoffCheck s).heading = s.heading := by
  rcases cutoffCheck_shape s with h | h <;> rw [h]

theorem snapCheck_heading (s : State) : (snapCheck s).heading = s.heading := by
  rcases snapCheck_shape s with h | h <;> rw [h]

theorem integrate_heading (s : State) (m : Sample) (dt : ℝ) :
    (integrate s m dt).heading =
      (stepHeadingMag (gyro_unbiased s m).z dt m (stepA s m dt)).heading := by
  unfold integrate
  dsimp only
  show (snapCheck (posIntegrate dt (cutoffCheck (timeoutCheck m.ts
    (stepHeadingMag (gyro_unbiased s m).z dt m (stepA s m dt)))))).heading = _
  rw [snapCheck_heading]
  show (cutoffCheck (timeoutCheck m.ts _)).heading = _
  rw [cutoffCheck_heading, timeoutCheck_heading]

theorem update_integrates (s : State) (m : Sample) (t0 : ℝ)
    (h : s.last_timestamp = some t0) (h1 : 0 < m.ts - t0) (h2 : m.ts - t0 ≤ 1) :
    update s m = (integrate s m (m.ts - t0), get_state (integrate s m (m.ts - t0))) := by
  unfold update
  rw [h]
  dsimp only
  rw [if_neg]
  push_neg
  exact ⟨h1, h2⟩

theorem update_bad_dt (s : State) (m : Sample) (t0 : ℝ)
    (h : s.last_timestamp = some t0) (hbad : m.ts - t0 ≤ 0 ∨ 1 < m.ts - t0) :
    (update s m).1 = { s with last_timestamp := some m.ts } ∧
    (update s m).2 = get_state { s with last_timestamp := some m.ts } := by
  unfold update
  rw [h]
  dsimp only
  rw [if_pos hbad]
  exact ⟨rfl, rfl⟩

/-! ### C3: dt rejection -/

/-- C3: a sample whose dt is nonpositive or exceeds 1.0 s is not integrated:
the whole state except last_timestamp is unchanged, last_timestamp is advanced
to the new timestamp, and the (unchanged) state snapshot is returned. -/
theorem C3_dt_rejection (s : State) (m : Sample) (t0 : ℝ)
    (h : s.last_timestamp = some t0) (hbad : m.ts - t0 ≤ 0 ∨ 1 < m.ts - t0) :
    (update s m).1 = { s with last_timestamp := some m.ts } ∧
    (update s m).2 = get_state { s with last_timestamp := some m.ts } :=
  update_bad_dt s m t0 h hbad

def w3state : State :=
  (update (initState ⟨0, 0⟩ 0 50) { accel := ⟨0, 0, 9.81⟩, gyro := ⟨0, 0, 0⟩, ts := 1 }).1

theorem C3_dt_rejection_witness :
    w3state.last_timestamp = some 1 ∧
    ((0.99 : ℝ) - 1 ≤ 0 ∨ 1 < (0.99 : ℝ) - 1) ∧
    (update w3state { accel := ⟨0, 0, 9.81⟩, gyro := ⟨0, 0, 0⟩, ts := 0.99 }).1 =
      { w3state with last_timestamp := some 0.99 } :=
  ⟨rfl, Or.inl (by norm_num),
    (C3_dt_rejection w3state _ 1 rfl (Or.inl (by norm_num))).1⟩

/-! ### C10: first call initializes without integrating -/

/-- C10: on the very first update call after construction the estimator only
records the timestamp, replaces the gravity estimate with the raw accelerometer
vector, and returns a snapshot carrying the initial position, zero velocity and
the initial heading. -/
theorem C10_first_call (p0 : Vec2) (h0 hz : ℝ) (m : Sample) :
    (update (initState p0 h0 hz) m).1 =
      { initState p0 h0 hz with
        last_timestamp := some m.ts
        last_motion_time := some m.ts
        gravity := m.accel } ∧
    (update (initState p0 h0 hz) m).2.pos_x = p0.x ∧
    (update (initState p0 h0 hz) m).2.pos_y = p0.y ∧
    (update (initState p0 h0 hz) m).2.vx = 0 ∧
    (update (initState p0 h0 hz) m).2.vy = 0 ∧
    (update (initState p0 h0 hz) m).2.heading_rad = h0 :=
  ⟨rfl, rfl, rfl, rfl, rfl, rfl⟩

/-! ### C9: the AdvancedTrailTracker facade -/

/-- The full 6-DOF sample the facade builds from its reduced argument list. -/
def trackerSample (ax ay az gz t : ℝ) (mx my mz : Option ℝ) : Sample :=
  { accel := ⟨ax, ay, az⟩
    gyro := ⟨0, 0, gz⟩
    ts := t
    mag_x := mx
    mag_y := my
    mag_z := mz }

/-- C9: AdvancedTrailTracker.update returns exactly the snapshot of the wrapped
IMUDeadReckoningFixed.update called with gyro_x = gyro_y = 0, and its only state
change is storing that estimator's new state. -/
theorem C9_tracker_facade (tr : Tracker) (ax ay az gz t : ℝ) (mx my mz : Option ℝ) :
    (trackerUpdate tr ax ay az gz t mx my mz).2 =
      (update tr.imu (trackerSample ax ay az gz t mx my mz)).2 ∧
    (trackerUpdate tr ax ay az gz t mx my mz).1 =
      { tr with imu := (update tr.imu (trackerSample ax ay az gz t mx my mz)).1 } :=
  ⟨rfl, rfl⟩

/-! ### C4: heading wrap invariant -/

/-- C4: every update call that integrates a sample (valid dt) leaves the
heading inside the half-open interval (-pi, pi]. -/
theorem C4_heading_wrap (s : State) (m : Sample) (t0 : ℝ)
    (h : s.last_timestamp = some t0) (h1 : 0 < m.ts - t0) (h2 : m.ts - t0 ≤ 1) :
    (update s m).1.heading ∈ Set.Ioc (-Real.pi) Real.pi := by
  have hu := update_integrates s m t0 h h1 h2
  rw [hu]
  dsimp only
  rw [integrate_heading]
  exact stepHeadingMag_heading_mem _ _ _ _

def w4state : State :=
  (update (initState ⟨0, 0⟩ 0 50) { accel := ⟨0, 0, 9.81⟩, gyro := ⟨0, 0, 0⟩, ts := 0 }).1

theorem C4_heading_wrap_witness :
    w4state.last_timestamp = some 0 ∧ (0 : ℝ) < 0.02 - 0 ∧ (0.02 : ℝ) - 0 ≤ 1 ∧
    (update w4state { accel := ⟨0, 0, 9.81⟩, gyro := ⟨0, 0, 0⟩, ts := 0.02 }).1.heading ∈
      Set.Ioc (-Real.pi) Real.pi :=
  ⟨rfl, by norm_num, by norm_num,
    C4_heading_wrap w4state _ 0 rfl (by norm_num) (by norm_num)⟩

/-! ### C8: velocity magnitude bound -/

theorem vnorm2_nonneg (v : Vec2) : 0 ≤ vnorm2 v := Real.sqrt_nonneg _

theorem vnorm2_zero : vnorm2 ⟨0, 0⟩ = 0 := by
  unfold vnorm2
  norm_num

theorem vnorm2_smul (v : Vec2) (c : ℝ) (hc : 0 ≤ c) :
    vnorm2 ⟨v.x * c, v.y * c⟩ = c * vnorm2 v := by
  unfold vnorm2
  have : (v.x * c) ^ 2 + (v.y * c) ^ 2 = c ^ 2 * (v.x ^ 2 + v.y ^ 2) := by ring
  rw [this, Real.sqrt_mul (sq_nonneg c), Real.sqrt_sq hc]

theorem clamp_speed_bound (v : Vec2) (ms : ℝ) (hms : 0 ≤ ms) :
    vnorm2 (clamp_speed v ms) ≤ ms := by
  unfold clamp_speed
  dsimp only
  split_ifs with h
  · have hpos : 0 < vnorm2 v := lt_of_le_of_lt hms h
    have hc : 0 ≤ ms / vnorm2 v := div_nonneg hms (le_of_lt hpos)
    rw [vnorm2_smul v _ hc, div_mul_cancel₀ _ (ne_of_gt hpos)]
  · exact le_of_not_lt h

theorem stepA_max_speed (s : State) (m : Sample) (dt : ℝ) :
    (stepA s m dt).max_speed = s.max_speed := by
  unfold stepA
  split <;> rfl

theorem stepA_velocity_bound (s : State) (m : Sample) (dt : ℝ) (hmax : 0 ≤ s.max_speed) :
    vnorm2 (stepA s m dt).velocity ≤ s.max_speed := by
  unfold stepA
  split
  · rw [show (zuptBranch s m).velocity = ⟨0, 0⟩ from rfl, vnorm2_zero]
    exact hmax
  · show vnorm2 (clamp_speed _ s.max_speed) ≤ s.max_speed
    exact clamp_speed_bound _ _ hmax

theorem stepHeadingMag_velocity (gz dt : ℝ) (m : Sample) (s : State) :
    (stepHeadingMag gz dt m s).velocity = s.velocity := by
  obtain ⟨h, hh⟩ := stepHeadingMag_shape gz dt m s
  rw [hh]

theorem stepHeadingMag_max_speed (gz dt : ℝ) (m : Sample) (s : State) :
    (stepHeadingMag gz dt m s).max_speed = s.max_speed := by
  obtain ⟨h, hh⟩ := stepHeadingMag_shape gz dt m s
  rw [hh]

theorem timeoutCheck_max_speed (ts : ℝ) (s : State) :
    (timeoutCheck ts s).max_speed = s.max_speed := by
  rcases timeoutCheck_shape ts s with h | h <;> rw [h]

theorem cutoffCheck_max_speed (s : State) : (cutoffCheck s).max_speed = s.max_speed := by
  rcases cutoffCheck_shape s with h | h <;> rw [h]

theorem snapCheck_velocity (s : State) : (snapCheck s).velocity = s.velocity := by
  rcases snapCheck_shape s with h | h <;> rw [h]

theorem snapCheck_max_speed (s : State) : (snapCheck s).max_speed = s.max_speed := by
  rcases snapCheck_shape s with h | h <;> rw [h]

theorem timeoutCheck_velocity_bound (ts c : ℝ) (s : State) (hc : 0 ≤ c)
    (hv : vnorm2 s.velocity ≤ c) : vnorm2 (timeoutCheck ts s).velocity ≤ c := by
  rcases timeoutCheck_shape ts s with h | h <;> rw [h]
  · exact hv
  · rw [show ({ s with velocity := ⟨0, 0⟩ } : State).velocity = ⟨0, 0⟩ from rfl, vnorm2_zero]
    exact hc

theorem cutoffCheck_velocity_bound (c : ℝ) (s : State) (hc : 0 ≤ c)
    (hv : vnorm2 s.velocity ≤ c) : vnorm2 (cutoffCheck s).velocity ≤ c := by
  rcases cutoffCheck_shape s with h | h <;> rw [h]
  · exact hv
  · rw [show ({ s with velocity := ⟨0, 0⟩ } : State).velocity = ⟨0, 0⟩ from rfl, vnorm2_zero]
    exact hc

theorem integrate_velocity_bound (s : State) (m : Sample) (dt : ℝ) (hmax : 0 ≤ s.max_speed) :
    vnorm2 (integrate s m dt).velocity ≤ s.max_speed := by
  unfold integrate
  dsimp only
  show vnorm2 (snapCheck (posIntegrate dt (cutoffCheck (timeoutCheck m.ts
    (stepHeadingMag (v3sub m.gyro s.gyro_bias).z dt m (stepA s m dt)))))).velocity ≤ s.max_speed
  rw [snapCheck_velocity]
  show vnorm2 (cutoffCheck (timeoutCheck m.ts _)).velocity ≤ s.max_speed
  apply cutoffCheck_velocity_bound _ _ hmax
  apply timeoutCheck_velocity_bound _ _ _ hmax
  rw [stepHeadingMag_velocity]
  exact stepA_velocity_bound s m dt hmax

theorem integrate_max_speed (s : State) (m : Sample) (dt : ℝ) :
    (integrate s m dt).max_speed = s.max_speed := by
  unfold integrate
  dsimp only
  show (snapCheck (posIntegrate dt (cutoffCheck (timeoutCheck m.ts
    (stepHeadingMag (v3sub m.gyro s.gyro_bias).z dt m (stepA s m dt)))))).max_speed = s.max_speed
  rw [snapCheck_max_speed]
  show (cutoffCheck (timeoutCheck m.ts _)).max_speed = s.max_speed
  rw [cutoffCheck_max_speed, timeoutCheck_max_speed, stepHeadingMag_max_speed, stepA_max_speed]

theorem update_velocity_bound (s : State) (m : Sample) (hmax : 0 ≤ s.max_speed)
    (hv : vnorm2 s.velocity ≤ s.max_speed) :
    vnorm2 (update s m).1.velocity ≤ s.max_speed ∧ (update s m).1.max_speed = s.max_speed := by
  unfold update
  cases hlt : s.last_timestamp with
  | none => exact ⟨hv, rfl⟩
  | some t0 =>
    dsimp only
    split_ifs with hbad
    · exact ⟨hv, rfl⟩
    · exact ⟨integrate_velocity_bound s m _ hmax, integrate_max_speed s m _⟩

theorem runList_velocity_bound (ms : List Sample) (s : State) (hmax : 0 ≤ s.max_speed)
    (hv : vnorm2 s.velocity ≤ s.max_speed) :
    vnorm2 (runList s ms).velocity ≤ (runList s ms).max_speed ∧
    (runList s ms).max_speed = s.max_speed := by
  induction ms generalizing s with
  | nil => exact ⟨hv, rfl⟩
  | cons m rest ih =>
    have h1 := update_velocity_bound s m hmax hv
    have h2 := ih (update s m).1 (h1.2 ▸ hmax) (h1.2 ▸ h1.1)
    exact ⟨h2.1, h2.2.trans h1.2⟩

/-- C8: after any sequence of update calls from a freshly constructed
estimator, the velocity magnitude never exceeds the configured max_speed,
whose value is the default 4.0 m/s. -/
theorem C8_speed_bound (p0 : Vec2) (h0 hz : ℝ) (ms : List Sample) :
    vnorm2 (runList (initState p0 h0 hz) ms).velocity ≤
      (runList (initState p0 h0 hz) ms).max_speed ∧
    (runList (initState p0 h0 hz) ms).max_speed = 4 := by
  have h0' : vnorm2 (initState p0 h0 hz).velocity ≤ (initState p0 h0 hz).max_speed := by
    rw [show (initState p0 h0 hz).velocity = ⟨0, 0⟩ from rfl, vnorm2_zero]
    norm_num [initState]
  have hm : (0 : ℝ) ≤ (initState p0 h0 hz).max_speed := by norm_num [initState]
  have h := runList_velocity_bound ms (initState p0 h0 hz) hm h0'
  exact ⟨h.1, h.2.trans (by norm_num [initState])⟩

/-! ### More stage bookkeeping -/

theorem stepA_last_motion_time (s : State) (m : Sample) (dt : ℝ) :
    (stepA s m dt).last_motion_time = some m.ts := by
  unfold stepA
  split <;> rfl

theorem stepA_no_motion_timeout (s : State) (m : Sample) (dt : ℝ) :
    (stepA s m dt).no_motion_timeout = s.no_motion_timeout := by
  unfold stepA
  split <;> rfl

theorem stepA_velocity_threshold (s : State) (m : Sample) (dt : ℝ) :
    (stepA s m dt).velocity_threshold = s.velocity_threshold := by
  unfold stepA
  split <;> rfl

theorem stepA_history (s : State) (m : Sample) (dt : ℝ) :
    (stepA s m dt).history = s.history := by
  unfold stepA
  split <;> rfl

theorem stepA_is_stationary (s : State) (m : Sample) (dt : ℝ) :
    (stepA s m dt).is_stationary = stationary_flag s m := by
  unfold stepA
  split <;> rfl

theorem stepHeadingMag_last_motion_time (gz dt : ℝ) (m : Sample) (s : State) :
    (stepHeadingMag gz dt m s).last_motion_time = s.last_motion_time := by
  obtain ⟨h, hh⟩ := stepHeadingMag_shape gz dt m s
  rw [hh]

theorem stepHeadingMag_no_motion_timeout (gz dt : ℝ) (m : Sample) (s : State) :
    (stepHeadingMag gz dt m s).no_motion_timeout = s.no_motion_timeout := by
  obtain ⟨h, hh⟩ := stepHeadingMag_shape gz dt m s
  rw [hh]

theorem stepHeadingMag_velocity_threshold (gz dt : ℝ) (m : Sample) (s : State) :
    (stepHeadingMag gz dt m s).velocity_threshold = s.velocity_threshold := by
  obtain ⟨h, hh⟩ := stepHeadingMag_shape gz dt m s
  rw [hh]

theorem stepHeadingMag_history (gz dt : ℝ) (m : Sample) (s : State) :
    (stepHeadingMag gz dt m s).history = s.history := by
  obtain ⟨h, hh⟩ := stepHeadingMag_shape gz dt m s
  rw [hh]

theorem stepHeadingMag_is_stationary (gz dt : ℝ) (m : Sample) (s : State) :
    (stepHeadingMag gz dt m s).is_stationary = s.is_stationary := by
  obtain ⟨h, hh⟩ := stepHeadingMag_shape gz dt m s
  rw [hh]

theorem timeoutCheck_history (ts : ℝ) (s : State) :
    (timeoutCheck ts s).history = s.history := by
  rcases timeoutCheck_shape ts s with h | h <;> rw [h]

theorem cutoffCheck_history (s : State) : (cutoffCheck s).history = s.history := by
  rcases cutoffCheck_shape s with h | h <;> rw [h]

theorem snapCheck_history (s : State) : (snapCheck s).history = s.history := by
  rcases snapCheck_shape s with h | h <;> rw [h]

theorem timeoutCheck_noop (ts : ℝ) (s : State) (h : s.last_motion_time = some ts)
    (h2 : 0 ≤ s.no_motion_timeout) : timeoutCheck ts s = s := by
  unfold timeoutCheck
  rw [h]
  rw [if_neg]
  simp only [Option.getD_some, sub_self, not_lt]
  exact h2

theorem cutoffCheck_velocity_of_not (s : State)
    (h : ¬(vnorm2 s.velocity < s.velocity_threshold)) :
    (cutoffCheck s).velocity = s.velocity := by
  unfold cutoffCheck
  rw [if_neg h]

theorem integrate_velocity_eq (s : State) (m : Sample) (dt : ℝ) :
    (integrate s m dt).velocity =
      (cutoffCheck (timeoutCheck m.ts
        (stepHeadingMag (gyro_unbiased s m).z dt m (stepA s m dt)))).velocity := by
  unfold integrate
  dsimp only
  show (snapCheck (posIntegrate dt (cutoffCheck (timeoutCheck m.ts
    (stepHeadingMag (gyro_unbiased s m).z dt m (stepA s m dt)))))).velocity = _
  rw [snapCheck_velocity]
  rfl

theorem integrate_last_timestamp (s : State) (m : Sample) (dt : ℝ) :
    (integrate s m dt).last_timestamp = some m.ts := rfl

theorem integrate_history_len (s : State) (m : Sample) (dt : ℝ) :
    (integrate s m dt).history.length = s.history.length + 1 := by
  unfold integrate
  dsimp only
  show (historyAppend m.ts (acc_mag s m) (gyro_mag s m) (snapCheck (posIntegrate dt
    (cutoffCheck (timeoutCheck m.ts
      (stepHeadingMag (gyro_unbiased s m).z dt m (stepA s m dt))))))).history.length = _
  unfold historyAppend
  dsimp only
  rw [List.length_append, snapCheck_history]
  show ((cutoffCheck (timeoutCheck m.ts _)).history).length + 1 = _
  rw [cutoffCheck_history, timeoutCheck_history, stepHeadingMag_history, stepA_history]

theorem update_appends (s : State) (m : Sample) (t0 : ℝ)
    (h : s.last_timestamp = some t0) (h1 : 0 < m.ts - t0) (h2 : m.ts - t0 ≤ 1) :
    (update s m).1.history.length = s.history.length + 1 ∧
    (update s m).1.last_timestamp = some m.ts := by
  rw [update_integrates s m t0 h h1 h2]
  exact ⟨integrate_history_len s m _, integrate_last_timestamp s m _⟩

/-! ### C5: the no-motion timeout -/

/-- C5 (amended): the no-motion timeout check of lines 299-301 can never fire
on an integrated sample, because last_motion_time has already been refreshed to
the current timestamp in both classification branches earlier in the same call;
with the (nonnegative) configured timeout the check is a no-op and never forces
velocity to zero. -/
theorem C5_timeout_amended (s : State) (m : Sample) (dt : ℝ)
    (h : 0 ≤ s.no_motion_timeout) :
    timeoutCheck m.ts (stepHeadingMag (gyro_unbiased s m).z dt m (stepA s m dt)) =
      stepHeadingMag (gyro_unbiased s m).z dt m (stepA s m dt) := by
  apply timeoutCheck_noop
  · rw [stepHeadingMag_last_motion_time, stepA_last_motion_time]
  · rw [stepHeadingMag_no_motion_timeout, stepA_no_motion_timeout]
    exact h

/-- The constant-gravity, zero-gyro, magnetometer-free sample stream. -/
def zsample (t : ℝ) : Sample := { accel := ⟨0, 0, 9.81⟩, gyro := ⟨0, 0, 0⟩, ts := t }

theorem C5_timeout_amended_witness :
    (0 : ℝ) ≤ (initState ⟨0, 0⟩ 0 50).no_motion_timeout ∧
    timeoutCheck (zsample 1).ts
      (stepHeadingMag (gyro_unbiased (initState ⟨0, 0⟩ 0 50) (zsample 1)).z 1 (zsample 1)
        (stepA (initState ⟨0, 0⟩ 0 50) (zsample 1) 1)) =
      stepHeadingMag (gyro_unbiased (initState ⟨0, 0⟩ 0 50) (zsample 1)).z 1 (zsample 1)
        (stepA (initState ⟨0, 0⟩ 0 50) (zsample 1) 1) :=
  ⟨by norm_num [initState],
    C5_timeout_amended (initState ⟨0, 0⟩ 0 50) (zsample 1) 1 (by norm_num [initState])⟩

/-! ### C6: the history is unbounded -/

/-- C6 (amended): the trail history is an unbounded append-only list, not a
capacity-bounded ring buffer: every integrated sample appends exactly one
entry and no entry is ever evicted. -/
theorem C6_history_amended (s : State) (m : Sample) (t0 : ℝ)
    (h : s.last_timestamp = some t0) (h1 : 0 < m.ts - t0) (h2 : m.ts - t0 ≤ 1) :
    (update s m).1.history.length = s.history.length + 1 :=
  (update_appends s m t0 h h1 h2).1

/-- A run of the estimator on the constant stream, with caller-chosen
timestamps. -/
def zrunT (p0 : Vec2) (h0 : ℝ) (τ : ℕ → ℝ) : ℕ → State
  | 0 => initState p0 h0 50
  | n + 1 => (update (zrunT p0 h0 τ n) (zsample (τ n))).1

/-- 50 Hz timestamps. -/
def zts (n : ℕ) : ℝ := n * 0.02

/-- The concrete 50 Hz constant-sample run from the origin. -/
def zcrun : ℕ → State := zrunT ⟨0, 0⟩ 0 zts

theorem zcrun_last_and_len (n : ℕ) :
    (zcrun (n + 1)).last_timestamp = some (zts n) ∧
    (zcrun (n + 1)).history.length = n := by
  induction n with
  | zero => exact ⟨rfl, rfl⟩
  | succ k ih =>
    have hdt1 : (0 : ℝ) < zts (k + 1) - zts k := by
      unfold zts
      push_cast
      linarith
    have hdt2 : zts (k + 1) - zts k ≤ 1 := by
      unfold zts
      push_cast
      linarith
    have h := update_appends (zcrun (k + 1)) (zsample (zts (k + 1))) (zts k) ih.1 hdt1 hdt2
    refine ⟨h.2, ?_⟩
    rw [show zcrun (k + 1 + 1) = (update (zcrun (k + 1)) (zsample (zts (k + 1)))).1 from rfl,
      h.1, ih.2]

theorem C6_history_amended_witness :
    (zcrun 1).last_timestamp = some 0 ∧
    (0 : ℝ) < (zsample 0.02).ts - 0 ∧ (zsample 0.02).ts - 0 ≤ 1 ∧
    (update (zcrun 1) (zsample 0.02)).1.history.length = (zcrun 1).history.length + 1 := by
  have hl : (zcrun 1).last_timestamp = some 0 := by
    have h := (zcrun_last_and_len 0).1
    simpa [zts] using h
  exact ⟨hl, by norm_num [zsample], by norm_num [zsample],
    C6_history_amended (zcrun 1) (zsample 0.02) 0 hl (by norm_num [zsample])
      (by norm_num [zsample])⟩

/-- C6 counterexample: after 1002 update calls on valid 50 Hz samples the
history holds 1001 entries, exceeding the claimed 1000-point capacity. -/
theorem C6_history_cex : 1000 < (zrunT ⟨0, 0⟩ 0 zts 1002).history.length := by
  have h := (zcrun_last_and_len 1001).2
  rw [show zrunT ⟨0, 0⟩ 0 zts 1002 = zcrun 1002 from rfl, h]
  norm_num

/-! ### Concrete norm evaluation helpers -/

theorem vnorm3_of_sq (v : Vec3) (a : ℝ) (ha : 0 ≤ a)
    (h : v.x ^ 2 + v.y ^ 2 + v.z ^ 2 = a ^ 2) : vnorm3 v = a := by
  unfold vnorm3
  rw [h, Real.sqrt_sq ha]

theorem vnorm2_of_sq (v : Vec2) (a : ℝ) (ha : 0 ≤ a)
    (h : v.x ^ 2 + v.y ^ 2 = a ^ 2) : vnorm2 v = a := by
  unfold vnorm2
  rw [h, Real.sqrt_sq ha]

theorem lt_vnorm3 (v : Vec3) (c : ℝ) (hc : 0 ≤ c)
    (h : c ^ 2 < v.x ^ 2 + v.y ^ 2 + v.z ^ 2) : c < vnorm3 v := by
  unfold vnorm3
  calc c = Real.sqrt (c ^ 2) := (Real.sqrt_sq hc).symm
    _ < _ := Real.sqrt_lt_sqrt (sq_nonneg c) h

/-! ### C5 counterexample run -/

def c5init : State := initState ⟨0, 0⟩ 0 50

def c5s1 : State := (update c5init (zsample 0)).1

def c5m2 : Sample := { accel := ⟨0, 0, 9.81⟩, gyro := ⟨0, 0, 0⟩, ts := 10 }

def c5s2 : State := (update c5s1 c5m2).1

def c5m : Sample := { accel := ⟨3, 0, 0⟩, gyro := ⟨0, 0, 0⟩, ts := 10.1 }

theorem c5s1_eq : c5s1 = { c5init with
    last_timestamp := some 0
    last_motion_time := some 0
    gravity := ⟨0, 0, 9.81⟩ } := rfl

theorem c5s2_eq : c5s2 = { c5init with
    last_timestamp := some 10
    last_motion_time := some 0
    gravity := ⟨0, 0, 9.81⟩ } := by
  have h := (update_bad_dt c5s1 c5m2 0 (by rw [c5s1_eq]) (Or.inr (by norm_num [c5m2]))).1
  show (update c5s1 c5m2).1 = _
  rw [h, c5s1_eq]
  rfl

theorem c5_user_acc : (0.15 : ℝ) < user_acc_mag c5s2 c5m := by
  unfold user_acc_mag acc_unbiased
  rw [c5s2_eq]
  apply lt_vnorm3 _ _ (by norm_num)
  simp only [v3sub, c5m, c5init, initState]
  norm_num

theorem c5_flag : stationary_flag c5s2 c5m = false := by
  have ht : c5s2.user_acc_threshold = 0.15 := by rw [c5s2_eq]; rfl
  have hcand : ¬is_stationary_candidate c5s2 c5m := by
    intro h
    exact h.2.2.2.2.1 (by rw [ht]; exact c5_user_acc)
  have hwin : stationary_windows' c5s2 c5m = 0 := by
    unfold stationary_windows'
    rw [if_neg hcand]
  have hreq : c5s2.stationary_required_windows = 2 := by rw [c5s2_eq]; rfl
  unfold stationary_flag
  rw [hwin, hreq]
  rfl

theorem c5_accmag : acc_mag c5s2 c5m = 3 := by
  unfold acc_mag acc_unbiased
  rw [c5s2_eq]
  apply vnorm3_of_sq _ _ (by norm_num)
  simp only [v3sub, c5m, c5init, initState]
  norm_num

theorem c5_gm : gravity_moving c5s2 c5m = ⟨0, 0, 9.81⟩ := by
  have hc : ¬(|acc_mag c5s2 c5m - 9.81| < 1.5 ∧
      gyro_mag c5s2 c5m < 5.0 * c5s2.gyro_std_threshold) := by
    rintro ⟨h1, _⟩
    rw [c5_accmag, show (3 : ℝ) - 9.81 = -6.81 from by norm_num, abs_neg,
      abs_of_nonneg (by norm_num : (0 : ℝ) ≤ 6.81)] at h1
    norm_num at h1
  unfold gravity_moving
  rw [if_neg hc, c5s2_eq]

theorem c5_hp : hp_state' c5s2 c5m = ⟨0.24, 0, -0.7848⟩ := by
  unfold hp_state' acc_unbiased
  rw [c5_gm, c5s2_eq]
  simp only [v3add, v3smul, v3sub, c5m, c5init, initState, Vec3.mk.injEq]
  norm_num

theorem c5_ahp : v3sub (v3sub (acc_unbiased c5s2 c5m) (gravity_moving c5s2 c5m))
    (hp_state' c5s2 c5m) = ⟨2.76, 0, -9.0252⟩ := by
  rw [c5_gm, c5_hp]
  unfold acc_unbiased
  rw [c5s2_eq]
  simp only [v3sub, c5m, c5init, initState, Vec3.mk.injEq]
  norm_num

theorem c5_mv : (motionBranch c5s2 c5m (c5m.ts - 10)).velocity = ⟨0.1932, 0⟩ := by
  have hh : c5s2.heading = 0 := by rw [c5s2_eq]; rfl
  have hvx : c5s2.velocity.x = 0 := by rw [c5s2_eq]; rfl
  have hvy : c5s2.velocity.y = 0 := by rw [c5s2_eq]; rfl
  have hvd : c5s2.velocity_damping = 0.7 := by rw [c5s2_eq]; rfl
  have hms : c5s2.max_speed = 4.0 := by rw [c5s2_eq]; rfl
  have hts : c5m.ts = 10.1 := rfl
  unfold motionBranch
  dsimp only
  rw [c5_ahp, hh, hvx, hvy, hvd, hms, hts, Real.cos_zero, Real.sin_zero]
  dsimp only
  rw [show (2.76 : ℝ) * 1 - 0 * 0 = 2.76 from by norm_num,
    show (2.76 : ℝ) * 0 + 0 * 1 = 0 from by norm_num,
    abs_of_nonneg (by norm_num : (0 : ℝ) ≤ 2.76), abs_zero]
  rw [if_neg (by norm_num : ¬((2.76 : ℝ) < 0.01)), if_pos (by norm_num : (0 : ℝ) < 0.01)]
  have hv2 : ((0 : ℝ) + 2.76 * (10.1 - 10)) * (1 - (1 - 0.7) * (10.1 - 10) * 10.0) = 0.1932 := by
    norm_num
  have hv2y : ((0 : ℝ) + 0 * (10.1 - 10)) * (1 - (1 - 0.7) * (10.1 - 10) * 10.0) = 0 := by
    norm_num
  rw [hv2, hv2y]
  unfold clamp_speed
  dsimp only
  rw [vnorm2_of_sq ⟨0.1932, 0⟩ 0.1932 (by norm_num) (by norm_num)]
  rw [if_neg (by norm_num : ¬((4.0 : ℝ) < 0.1932))]

/-- C5 counterexample: at the third call of this run, no motion has been
classified for 10.1 s (far beyond the 3.0 s timeout, last_motion_time = 0)
and the sample's dt = 0.1 is valid, yet the velocity after the call is
(0.1932, 0), not zero: the claimed unconditional safety net does not fire. -/
theorem C5_timeout_cex :
    c5s2.last_motion_time = some 0 ∧
    c5s2.no_motion_timeout = 3.0 ∧
    c5s2.last_timestamp = some 10 ∧
    c5s2.no_motion_timeout < c5m.ts - 0 ∧
    (0 : ℝ) < c5m.ts - 10 ∧ c5m.ts - 10 ≤ 1 ∧
    (update c5s2 c5m).1.velocity ≠ (⟨0, 0⟩ : Vec2) := by
  refine ⟨by rw [c5s2_eq], by rw [c5s2_eq]; rfl, by rw [c5s2_eq],
    by rw [c5s2_eq]; show (3.0 : ℝ) < 10.1 - 0; norm_num,
    by show (0 : ℝ) < 10.1 - 10; norm_num,
    by show (10.1 : ℝ) - 10 ≤ 1; norm_num, ?_⟩
  rw [update_integrates c5s2 c5m 10 (by rw [c5s2_eq])
    (by show (0 : ℝ) < 10.1 - 10; norm_num) (by show (10.1 : ℝ) - 10 ≤ 1; norm_num)]
  dsimp only
  rw [integrate_velocity_eq]
  rw [timeoutCheck_noop _ _
    (by rw [stepHeadingMag_last_motion_time, stepA_last_motion_time])
    (by rw [stepHeadingMag_no_motion_timeout, stepA_no_motion_timeout, c5s2_eq]; norm_num
      [c5init, initState])]
  have hstep : stepA c5s2 c5m (c5m.ts - 10) = motionBranch c5s2 c5m (c5m.ts - 10) := by
    unfold stepA
    rw [if_neg (by simp [c5_flag])]
  have hsb : (stepHeadingMag (gyro_unbiased c5s2 c5m).z (c5m.ts - 10) c5m
      (stepA c5s2 c5m (c5m.ts - 10))).velocity = ⟨0.1932, 0⟩ := by
    rw [stepHeadingMag_velocity, hstep]
    exact c5_mv
  have hth : (stepHeadingMag (gyro_unbiased c5s2 c5m).z (c5m.ts - 10) c5m
      (stepA c5s2 c5m (c5m.ts - 10))).velocity_threshold = 0.03 := by
    rw [stepHeadingMag_velocity_threshold, stepA_velocity_threshold, c5s2_eq]
    rfl
  have hnot : ¬(vnorm2 (stepHeadingMag (gyro_unbiased c5s2 c5m).z (c5m.ts - 10) c5m
      (stepA c5s2 c5m (c5m.ts - 10))).velocity <
      (stepHeadingMag (gyro_unbiased c5s2 c5m).z (c5m.ts - 10) c5m
        (stepA c5s2 c5m (c5m.ts - 10))).velocity_threshold) := by
    rw [hsb, hth, vnorm2_of_sq ⟨0.1932, 0⟩ 0.1932 (by norm_num) (by norm_num)]
    norm_num
  rw [cutoffCheck_velocity_of_not _ hnot, hsb]
  intro hcon
  simp only [Vec2.mk.injEq] at hcon
  exact absurd hcon.1 (by norm_num)

/-! ### Constant-buffer lemmas for the ZUPT stream -/

theorem npMean_const (l : List ℝ) (c : ℝ) (hne : l ≠ []) (h : ∀ x ∈ l, x = c) :
    npMean l = c := by
  unfold npMean
  rw [List.sum_eq_card_nsmul l c h, nsmul_eq_mul]
  have hlen : (l.length : ℝ) ≠ 0 := by
    exact_mod_cast Nat.pos_iff_ne_zero.mp (List.length_pos.mpr hne)
  rw [mul_comm, mul_div_assoc, div_self hlen, mul_one]

theorem npStd_const (l : List ℝ) (c : ℝ) (hne : l ≠ []) (h : ∀ x ∈ l, x = c) :
    npStd l = 0 := by
  unfold npStd
  have hz : (l.map (fun v => (v - npMean l) ^ 2)).sum = 0 := by
    apply List.sum_eq_zero
    intro x hx
    obtain ⟨a, ha, rfl⟩ := List.mem_map.mp hx
    rw [h a ha, npMean_const l c hne h, sub_self]
    norm_num
  rw [hz, zero_div, Real.sqrt_zero]

theorem pushBuf_forall (cap : ℕ) (l : List ℝ) (c : ℝ) (h : ∀ x ∈ l, x = c) :
    ∀ x ∈ pushBuf cap l c, x = c := by
  intro x hx
  unfold pushBuf at hx
  dsimp only at hx
  split_ifs at hx with hc
  · rcases List.mem_append.mp (List.drop_subset _ _ hx) with h1 | h1
    · exact h x h1
    · simpa using h1
  · rcases List.mem_append.mp hx with h1 | h1
    · exact h x h1
    · simpa using h1

theorem pushBuf_ne_nil (cap : ℕ) (hcap : 0 < cap) (l : List ℝ) (v : ℝ) :
    pushBuf cap l v ≠ [] := by
  unfold pushBuf
  dsimp only
  split_ifs with hc
  · intro hnil
    have hlen := congrArg List.length hnil
    rw [List.length_drop] at hlen
    simp only [List.length_nil, List.length_append, List.length_singleton] at hlen hc
    omega
  · simp

theorem foldl_max_const (c : ℝ) : ∀ (r : List ℝ) (acc : ℝ),
    (∀ x ∈ r, x = c) → acc = c → r.foldl max acc = c := by
  intro r
  induction r with
  | nil => intro acc _ hacc; exact hacc
  | cons b r ih =>
    intro acc hmem hacc
    have hb : b = c := hmem b (by simp)
    exact ih (max acc b) (fun x hx => hmem x (by simp [hx]))
      (by rw [hacc, hb, max_self])

theorem foldl_min_const (c : ℝ) : ∀ (r : List ℝ) (acc : ℝ),
    (∀ x ∈ r, x = c) → acc = c → r.foldl min acc = c := by
  intro r
  induction r with
  | nil => intro acc _ hacc; exact hacc
  | cons b r ih =>
    intro acc hmem hacc
    have hb : b = c := hmem b (by simp)
    exact ih (min acc b) (fun x hx => hmem x (by simp [hx]))
      (by rw [hacc, hb, min_self])

theorem listMax_const (l : List ℝ) (c : ℝ) (hne : l ≠ []) (h : ∀ x ∈ l, x = c) :
    listMax l = c := by
  match l, hne with
  | a :: r, _ =>
    unfold listMax
    exact foldl_max_const c r a (fun x hx => h x (by simp [hx])) (h a (by simp))

theorem listMin_const (l : List ℝ) (c : ℝ) (hne : l ≠ []) (h : ∀ x ∈ l, x = c) :
    listMin l = c := by
  match l, hne with
  | a :: r, _ =>
    unfold listMin
    exact foldl_min_const c r a (fun x hx => h x (by simp [hx])) (h a (by simp))

theorem clamp_speed_zero (ms : ℝ) (hms : 0 ≤ ms) : clamp_speed ⟨0, 0⟩ ms = ⟨0, 0⟩ := by
  unfold clamp_speed
  dsimp only
  rw [vnorm2_zero, if_neg (not_lt.mpr hms)]

theorem cutoffCheck_of_zero (s : State) (h : s.velocity = ⟨0, 0⟩) :
    cutoffCheck s = s := by
  rcases cutoffCheck_shape s with h' | h' <;> rw [h']
  rw [← h]

theorem posIntegrate_of_zero (dt : ℝ) (s : State) (h : s.velocity = ⟨0, 0⟩) :
    posIntegrate dt s = s := by
  have hx : s.velocity.x = 0 := by rw [h]
  have hy : s.velocity.y = 0 := by rw [h]
  unfold posIntegrate
  rw [hx, hy,
    show s.position.x + 0 * dt = s.position.x from by ring,
    show s.position.y + 0 * dt = s.position.y from by ring]

theorem snapCheck_of_origin (s : State) (h : s.position = s.origin) :
    snapCheck s = s := by
  unfold snapCheck
  split_ifs with hst
  · cases hr : s.snap_to_origin_radius with
    | none => rfl
    | some r =>
      dsimp only
      split_ifs with hd
      · rw [← hr]
        have h2 : ({ s with position := s.origin } : State) =
            { s with position := s.position } := by rw [h]
        rw [h2]
      · rfl
  · rfl

/-! ### The ZUPT-stream invariant -/

/-- The gravity vector fed to (and maintained by) the constant stream. -/
def gvec : Vec3 := ⟨0, 0, 9.81⟩

/-- Invariant of the estimator state along the constant-gravity zero-gyro
stream: after 1 + n samples the state has its initial position, exactly zero
velocity, the initial gravity estimate, zero biases and filter memory,
constant-valued rolling buffers, a stationary run length of n, and the
configuration values set by the constructor. -/
structure ZInv (p0 : Vec2) (t : ℝ) (n : ℕ) (s : State) : Prop where
  pos : s.position = p0
  vel : s.velocity = ⟨0, 0⟩
  lts : s.last_timestamp = some t
  orig : s.origin = p0
  snapr : s.snap_to_origin_radius = some 0.5
  abias : s.accel_bias = ⟨0, 0, 0⟩
  gbias : s.gyro_bias = ⟨0, 0, 0⟩
  grav : s.gravity = gvec
  hp : s.hp_state = ⟨0, 0, 0⟩
  wpos : 0 < s.win_len
  bufA : ∀ x ∈ s.accel_mag_buf, x = 9.81
  bufG : ∀ x ∈ s.gyro_mag_buf, x = 0
  bufGr : ∀ x ∈ s.gravity_buf, x = 9.81
  bufU : ∀ x ∈ s.user_acc_buf, x = 0
  bufGx : ∀ x ∈ s.gravity_x_buf, x = 0
  bufGy : ∀ x ∈ s.gravity_y_buf, x = 0
  wins : s.stationary_windows = n
  flag : s.is_stationary = decide (2 ≤ n)
  req : s.stationary_required_windows = 2
  astd : s.accel_std_threshold = 0.15
  gstd : s.gyro_std_threshold = 1.2 * (Real.pi / 180)
  pkg : s.threshold_peaks_gravity = 0.35
  pku : s.threshold_peaks_user_acc = 0.35
  uath : s.user_acc_threshold = 0.15
  ugx : s.user_gravity_threshold_x = 0.7
  ugy : s.user_gravity_threshold_y = 0.7
  timeo : s.no_motion_timeout = 3.0
  maxs : s.max_speed = 4.0

theorem zfirst (p0 : Vec2) (h0 t : ℝ) :
    ZInv p0 t 0 ((update (initState p0 h0 50) (zsample t)).1) :=
  { pos := rfl
    vel := rfl
    lts := rfl
    orig := rfl
    snapr := rfl
    abias := rfl
    gbias := rfl
    grav := rfl
    hp := rfl
    wpos := Nat.lt_of_lt_of_le (by norm_num) (Nat.le_max_left 4 _)
    bufA := fun x hx => absurd hx (List.not_mem_nil x)
    bufG := fun x hx => absurd hx (List.not_mem_nil x)
    bufGr := fun x hx => absurd hx (List.not_mem_nil x)
    bufU := fun x hx => absurd hx (List.not_mem_nil x)
    bufGx := fun x hx => absurd hx (List.not_mem_nil x)
    bufGy := fun x hx => absurd hx (List.not_mem_nil x)
    wins := rfl
    flag := rfl
    req := rfl
    astd := rfl
    gstd := rfl
    pkg := rfl
    pku := rfl
    uath := rfl
    ugx := rfl
    ugy := rfl
    timeo := rfl
    maxs := rfl }

/-- The state stepA produces from a ZInv state on a constant-stream sample
(both the ZUPT branch and the moving branch produce exactly this state). -/
def zafter (s : State) (n : ℕ) (t' : ℝ) : State :=
  { s with
    accel_mag_buf := pushBuf s.win_len s.accel_mag_buf 9.81
    gyro_mag_buf := pushBuf s.win_len s.gyro_mag_buf 0
    gravity_buf := pushBuf s.win_len s.gravity_buf 9.81
    user_acc_buf := pushBuf s.win_len s.user_acc_buf 0
    gravity_x_buf := pushBuf s.win_len s.gravity_x_buf 0
    gravity_y_buf := pushBuf s.win_len s.gravity_y_buf 0
    stationary_windows := n + 1
    is_stationary := decide (2 ≤ n + 1)
    gyro_bias := ⟨0, 0, 0⟩
    gravity := gvec
    hp_state := ⟨0, 0, 0⟩
    velocity := ⟨0, 0⟩
    last_motion_time := some t' }

theorem zstepA_eq (p0 : Vec2) (t : ℝ) (n : ℕ) (s : State) (hz : ZInv p0 t n s)
    (m : Sample) (ha : m.accel = ⟨0, 0, 9.81⟩) (hg : m.gyro = ⟨0, 0, 0⟩) (dt : ℝ) :
    stepA s m dt = zafter s n m.ts := by
  have h1 : acc_unbiased s m = ⟨0, 0, 9.81⟩ := by
    unfold acc_unbiased
    rw [ha, hz.abias]
    simp [v3sub]
  have h2 : acc_mag s m = 9.81 := by
    unfold acc_mag
    rw [h1]
    exact vnorm3_of_sq _ _ (by norm_num) (by norm_num)
  have h3 : gyro_unbiased s m = ⟨0, 0, 0⟩ := by
    unfold gyro_unbiased
    rw [hg, hz.gbias]
    simp [v3sub]
  have h4 : gyro_mag s m = 0 := by
    unfold gyro_mag
    rw [h3]
    exact vnorm3_of_sq _ _ le_rfl (by norm_num)
  have h5 : user_acc_mag s m = 0 := by
    unfold user_acc_mag
    rw [h1, hz.grav,
      show v3sub ⟨0, 0, 9.81⟩ gvec = (⟨0, 0, 0⟩ : Vec3) from by simp [v3sub, gvec]]
    exact vnorm3_of_sq _ _ le_rfl (by norm_num)
  have h6 : vnorm3 s.gravity = 9.81 := by
    rw [hz.grav]
    exact vnorm3_of_sq _ _ (by norm_num) (by norm_num [gvec])
  have h7 : s.gravity.x = 0 := by rw [hz.grav]; rfl
  have h8 : s.gravity.y = 0 := by rw [hz.grav]; rfl
  have hbA : ∀ x ∈ accel_mag_buf' s m, x = 9.81 := by
    unfold accel_mag_buf'
    rw [h2]
    exact pushBuf_forall _ _ _ hz.bufA
  have hbG : ∀ x ∈ gyro_mag_buf' s m, x = 0 := by
    unfold gyro_mag_buf'
    rw [h4]
    exact pushBuf_forall _ _ _ hz.bufG
  have hbGr : ∀ x ∈ gravity_buf' s m, x = 9.81 := by
    unfold gravity_buf'
    rw [h6]
    exact pushBuf_forall _ _ _ hz.bufGr
  have hbU : ∀ x ∈ user_acc_buf' s m, x = 0 := by
    unfold user_acc_buf'
    rw [h5]
    exact pushBuf_forall _ _ _ hz.bufU
  have hneA : accel_mag_buf' s m ≠ [] := by
    unfold accel_mag_buf'
    exact pushBuf_ne_nil _ hz.wpos _ _
  have hneG : gyro_mag_buf' s m ≠ [] := by
    unfold gyro_mag_buf'
    exact pushBuf_ne_nil _ hz.wpos _ _
  have hneGr : gravity_buf' s m ≠ [] := by
    unfold gravity_buf'
    exact pushBuf_ne_nil _ hz.wpos _ _
  have hneU : user_acc_buf' s m ≠ [] := by
    unfold user_acc_buf'
    exact pushBuf_ne_nil _ hz.wpos _ _
  have hcand : is_stationary_candidate s m := by
    refine ⟨?_, ?_, ?_, ?_, ?_, ?_, ?_⟩
    · unfold a_std
      split_ifs with hl
      · rw [npStd_const _ 9.81 hneA hbA, hz.astd]
        norm_num
      · rw [hz.astd]
        norm_num
    · unfold g_std
      split_ifs with hl
      · rw [npStd_const _ 0 hneG hbG, hz.gstd]
        positivity
      · rw [hz.gstd]
        positivity
    · intro hpk
      unfold gravity_has_peak at hpk
      rw [listMax_const _ 9.81 hneGr hbGr, listMin_const _ 9.81 hneGr hbGr, sub_self,
        hz.pkg] at hpk
      exact absurd hpk.2 (by norm_num)
    · intro hpk
      unfold user_acc_has_peak at hpk
      rw [listMax_const _ 0 hneU hbU, listMin_const _ 0 hneU hbU, sub_self, hz.pku] at hpk
      exact absurd hpk.2 (by norm_num)
    · rw [h5, hz.uath]
      norm_num
    · rw [h7, abs_zero, hz.ugx]
      norm_num
    · rw [h8, abs_zero, hz.ugy]
      norm_num
  have hwin : stationary_windows' s m = n + 1 := by
    unfold stationary_windows'
    rw [if_pos hcand, hz.wins]
  have hflag : stationary_flag s m = decide (2 ≤ n + 1) := by
    unfold stationary_flag
    rw [hwin, hz.req]
  have hblend : v3add (v3smul s.gravity_alpha s.gravity)
      (v3smul (1 - s.gravity_alpha) (acc_unbiased s m)) = gvec := by
    rw [h1, hz.grav]
    simp only [v3add, v3smul, gvec, Vec3.mk.injEq]
    refine ⟨by ring, by ring, by ring⟩
  have hbufA : accel_mag_buf' s m = pushBuf s.win_len s.accel_mag_buf 9.81 := by
    unfold accel_mag_buf'
    rw [h2]
  have hbufG : gyro_mag_buf' s m = pushBuf s.win_len s.gyro_mag_buf 0 := by
    unfold gyro_mag_buf'
    rw [h4]
  have hbufGr : gravity_buf' s m = pushBuf s.win_len s.gravity_buf 9.81 := by
    unfold gravity_buf'
    rw [h6]
  have hbufU : user_acc_buf' s m = pushBuf s.win_len s.user_acc_buf 0 := by
    unfold user_acc_buf'
    rw [h5]
  have hbufGx : gravity_x_buf' s m = pushBuf s.win_len s.gravity_x_buf 0 := by
    unfold gravity_x_buf'
    rw [h7, abs_zero]
  have hbufGy : gravity_y_buf' s m = pushBuf s.win_len s.gravity_y_buf 0 := by
    unfold gravity_y_buf'
    rw [h8, abs_zero]
  have hzupt : zuptBranch s m = zafter s n m.ts := by
    unfold zuptBranch sbase zafter
    rw [if_pos (List.length_pos.mpr hneG)]
    rw [hbufA, hbufG, hbufGr, hbufU, hbufGx, hbufGy, hwin, hflag, hblend, hz.gbias, hg]
    rw [show v3add (v3smul 0.99 (⟨0, 0, 0⟩ : Vec3)) (v3smul (1 - 0.99) (⟨0, 0, 0⟩ : Vec3)) =
      (⟨0, 0, 0⟩ : Vec3) from by simp [v3add, v3smul]]
    dsimp only
    rw [hz.hp]
  have hgm : gravity_moving s m = gvec := by
    unfold gravity_moving
    rw [if_pos ⟨by rw [h2, sub_self, abs_zero]; norm_num,
      by rw [h4, hz.gstd]; positivity⟩]
    exact hblend
  have hhp : hp_state' s m = ⟨0, 0, 0⟩ := by
    unfold hp_state'
    rw [hgm, h1, hz.hp]
    simp [v3add, v3smul, v3sub, gvec]
  have hmotion : motionBranch s m dt = zafter s n m.ts := by
    unfold motionBranch sbase zafter
    dsimp only
    rw [show v3sub (v3sub (acc_unbiased s m) (gravity_moving s m)) (hp_state' s m) =
      (⟨0, 0, 0⟩ : Vec3) from by rw [hgm, hhp, h1]; simp [v3sub, gvec]]
    dsimp only
    rw [show (0 : ℝ) * Real.cos s.heading - 0 * Real.sin s.heading = 0 from by ring,
      show (0 : ℝ) * Real.sin s.heading + 0 * Real.cos s.heading = 0 from by ring,
      abs_zero]
    rw [if_pos (by norm_num : (0 : ℝ) < 0.01)]
    rw [hz.vel]
    dsimp only
    rw [show (0 : ℝ) + 0 * dt = 0 from by ring]
    rw [show (0 : ℝ) * (1 - (1 - s.velocity_damping) * dt * 10.0) = 0 from by ring]
    rw [clamp_speed_zero s.max_speed (by rw [hz.maxs]; norm_num)]
    rw [hgm, hhp, hbufA, hbufG, hbufGr, hbufU, hbufGx, hbufGy, hwin, hflag, hz.gbias]
  unfold stepA
  rw [hflag]
  by_cases hn : 2 ≤ n + 1
  · rw [if_pos (by simp [hn])]
    exact hzupt
  · rw [if_neg (by simp [hn])]
    exact hmotion

theorem zintegrate_inv (p0 : Vec2) (t : ℝ) (n : ℕ) (s : State) (hz : ZInv p0 t n s)
    (m : Sample) (ha : m.accel = ⟨0, 0, 9.81⟩) (hg : m.gyro = ⟨0, 0, 0⟩) (dt : ℝ) :
    ZInv p0 m.ts (n + 1) (integrate s m dt) := by
  unfold integrate
  dsimp only
  rw [zstepA_eq p0 t n s hz m ha hg dt]
  obtain ⟨hd, hB⟩ := stepHeadingMag_shape (gyro_unbiased s m).z dt m (zafter s n m.ts)
  rw [hB]
  rw [timeoutCheck_noop m.ts _ rfl
    (by show (0 : ℝ) ≤ s.no_motion_timeout; rw [hz.timeo]; norm_num)]
  rw [cutoffCheck_of_zero _ rfl]
  rw [posIntegrate_of_zero _ _ rfl]
  rw [snapCheck_of_origin _ (by show s.position = s.origin; rw [hz.pos, hz.orig])]
  unfold historyAppend
  dsimp only
  exact
    { pos := hz.pos
      vel := rfl
      lts := rfl
      orig := hz.orig
      snapr := hz.snapr
      abias := hz.abias
      gbias := rfl
      grav := rfl
      hp := rfl
      wpos := hz.wpos
      bufA := pushBuf_forall _ _ _ hz.bufA
      bufG := pushBuf_forall _ _ _ hz.bufG
      bufGr := pushBuf_forall _ _ _ hz.bufGr
      bufU := pushBuf_forall _ _ _ hz.bufU
      bufGx := pushBuf_forall _ _ _ hz.bufGx
      bufGy := pushBuf_forall _ _ _ hz.bufGy
      wins := rfl
      flag := rfl
      req := hz.req
      astd := hz.astd
      gstd := hz.gstd
      pkg := hz.pkg
      pku := hz.pku
      uath := hz.uath
      ugx := hz.ugx
      ugy := hz.ugy
      timeo := hz.timeo
      maxs := hz.maxs }

theorem zstep (p0 : Vec2) (t : ℝ) (n : ℕ) (s : State) (hz : ZInv p0 t n s) (t' : ℝ)
    (h1 : 0 < t' - t) (h2 : t' - t ≤ 1) :
    ZInv p0 t' (n + 1) ((update s (zsample t')).1) := by
  rw [update_integrates s (zsample t') t hz.lts h1 h2]
  exact zintegrate_inv p0 t n s hz (zsample t') rfl rfl _

theorem zrunT_inv (p0 : Vec2) (h0 : ℝ) (τ : ℕ → ℝ)
    (hτ : ∀ i, 0 < τ (i + 1) - τ i ∧ τ (i + 1) - τ i ≤ 1) :
    ∀ k, ZInv p0 (τ k) k (zrunT p0 h0 τ (k + 1)) := by
  intro k
  induction k with
  | zero => exact zfirst p0 h0 (τ 0)
  | succ j ih =>
    show ZInv p0 (τ (j + 1)) (j + 1) ((update (zrunT p0 h0 τ (j + 1)) (zsample (τ (j + 1)))).1)
    exact zstep p0 (τ j) j _ ih (τ (j + 1)) (hτ j).1 (hτ j).2

/-! ### C1: ZUPT correctness on the constant stream -/

/-- C1: feeding the estimator a stream of samples with valid dt whose
accelerometer constantly equals the gravity estimate and whose gyro rate is
zero drives is_stationary to true and the velocity to exactly (0,0) after more
than K = stationary_required_windows = 2 samples, and the position never moves
from its initial value on these and all subsequent stationary samples. -/
theorem C1_zupt (p0 : Vec2) (h0 : ℝ) (τ : ℕ → ℝ)
    (hτ : ∀ i, 0 < τ (i + 1) - τ i ∧ τ (i + 1) - τ i ≤ 1) (n : ℕ) (hn : 2 < n) :
    (zrunT p0 h0 τ n).is_stationary = true ∧
    (zrunT p0 h0 τ n).velocity = ⟨0, 0⟩ ∧
    (zrunT p0 h0 τ n).position = p0 ∧
    (zrunT p0 h0 τ (n + 1)).position = (zrunT p0 h0 τ n).position := by
  obtain ⟨k, rfl⟩ : ∃ k, n = k + 1 := ⟨n - 1, by omega⟩
  have h1 := zrunT_inv p0 h0 τ hτ k
  have h2 := zrunT_inv p0 h0 τ hτ (k + 1)
  refine ⟨?_, h1.vel, h1.pos, by rw [h2.pos, h1.pos]⟩
  rw [h1.flag]
  simp only [decide_eq_true_eq]
  omega

theorem C1_zupt_witness :
    (∀ i, 0 < zts (i + 1) - zts i ∧ zts (i + 1) - zts i ≤ 1) ∧ 2 < 3 ∧
    ((zrunT ⟨0, 0⟩ 0 zts 3).is_stationary = true ∧
     (zrunT ⟨0, 0⟩ 0 zts 3).velocity = ⟨0, 0⟩ ∧
     (zrunT ⟨0, 0⟩ 0 zts 3).position = ⟨0, 0⟩ ∧
     (zrunT ⟨0, 0⟩ 0 zts 4).position = (zrunT ⟨0, 0⟩ 0 zts 3).position) := by
  have hτ : ∀ i, 0 < zts (i + 1) - zts i ∧ zts (i + 1) - zts i ≤ 1 := by
    intro i
    unfold zts
    push_cast
    constructor <;> linarith
  exact ⟨hτ, by norm_num, C1_zupt ⟨0, 0⟩ 0 zts hτ 3 (by norm_num)⟩

/-! ### C7: magnetometer hard reset while stationary -/

/-- C7: if a full magnetometer triple is supplied and the sample is classified
stationary, the heading after the update equals the wrapped
magnetometer-implied heading atan2(mag_y, mag_x), regardless of the heading
accumulated by gyro integration in the same call. -/
theorem C7_mag_hard_reset (s : State) (m : Sample) (t0 mx my mz : ℝ)
    (h : s.last_timestamp = some t0) (h1 : 0 < m.ts - t0) (h2 : m.ts - t0 ≤ 1)
    (hmx : m.mag_x = some mx) (hmy : m.mag_y = some my) (hmz : m.mag_z = some mz)
    (hst : stationary_flag s m = true) :
    (update s m).1.heading = wrap_angle (atan2 my mx) := by
  rw [update_integrates s m t0 h h1 h2]
  dsimp only
  rw [integrate_heading]
  have hsA : (stepA s m (m.ts - t0)).is_stationary = true := by
    rw [stepA_is_stationary]
    exact hst
  unfold stepHeadingMag
  rw [hmx, hmy, hmz]
  dsimp only
  rw [if_pos hsA]

/-- The stationary sample carrying a magnetometer reading that implies
heading 0. -/
def c7m : Sample :=
  { accel := ⟨0, 0, 9.81⟩
    gyro := ⟨0, 0, 0⟩
    ts := 0.06
    mag_x := some 1
    mag_y := some 0
    mag_z := some 0 }

theorem C7_mag_hard_reset_witness :
    (zrunT ⟨0, 0⟩ 0 zts 3).last_timestamp = some (zts 2) ∧
    0 < c7m.ts - zts 2 ∧ c7m.ts - zts 2 ≤ 1 ∧
    c7m.mag_x = some 1 ∧ c7m.mag_y = some 0 ∧ c7m.mag_z = some 0 ∧
    stationary_flag (zrunT ⟨0, 0⟩ 0 zts 3) c7m = true ∧
    (update (zrunT ⟨0, 0⟩ 0 zts 3) c7m).1.heading = wrap_angle (atan2 0 1) := by
  have hτ : ∀ i, 0 < zts (i + 1) - zts i ∧ zts (i + 1) - zts i ≤ 1 := by
    intro i
    unfold zts
    push_cast
    constructor <;> linarith
  have hz := zrunT_inv ⟨0, 0⟩ 0 zts hτ 2
  have hd1 : 0 < c7m.ts - zts 2 := by
    show (0 : ℝ) < 0.06 - zts 2
    unfold zts
    norm_num
  have hd2 : c7m.ts - zts 2 ≤ 1 := by
    show (0.06 : ℝ) - zts 2 ≤ 1
    unfold zts
    norm_num
  have hflag : stationary_flag (zrunT ⟨0, 0⟩ 0 zts 3) c7m = true := by
    rw [← stepA_is_stationary _ _ 0, zstepA_eq ⟨0, 0⟩ (zts 2) 2 _ hz c7m rfl rfl 0]
    rfl
  exact ⟨hz.lts, hd1, hd2, rfl, rfl, rfl, hflag,
    C7_mag_hard_reset _ c7m (zts 2) 1 0 0 hz.lts hd1 hd2 rfl rfl rfl hflag⟩

/-! ### C2: quaternion unit-norm invariant (spec-modelled orientation
integrator) -/

theorem qnormSq_nonneg (q : Quat) : 0 ≤ qnormSq q := by
  unfold qnormSq
  positivity

theorem qnormSq_mul (p q : Quat) : qnormSq (qmul p q) = qnormSq p * qnormSq q := by
  unfold qnormSq qmul
  dsimp only
  ring

theorem qnorm_mul (p q : Quat) : qnorm (qmul p q) = qnorm p * qnorm q := by
  unfold qnorm
  rw [qnormSq_mul, Real.sqrt_mul (qnormSq_nonneg p)]

theorem qnorm_sq (q : Quat) : qnorm q ^ 2 = qnormSq q := by
  unfold qnorm
  exact Real.sq_sqrt (qnormSq_nonneg q)

theorem qnorm_qnormalize (q : Quat) (h : 1e-12 < qnorm q) :
    qnorm (qnormalize q) = 1 := by
  unfold qnormalize
  rw [if_neg (not_le.mpr h)]
  have hn : 0 < qnorm q := lt_trans (by norm_num) h
  have hs : 0 < qnormSq q := by
    rw [← qnorm_sq]
    positivity
  show Real.sqrt (qnormSq ⟨q.w / qnorm q, q.x / qnorm q, q.y / qnorm q, q.z / qnorm q⟩) = 1
  unfold qnormSq
  dsimp only
  rw [show (q.w / qnorm q) ^ 2 + (q.x / qnorm q) ^ 2 + (q.y / qnorm q) ^ 2 +
      (q.z / qnorm q) ^ 2 = (q.w ^ 2 + q.x ^ 2 + q.y ^ 2 + q.z ^ 2) / qnorm q ^ 2 from by
    ring]
  rw [qnorm_sq]
  rw [show q.w ^ 2 + q.x ^ 2 + q.y ^ 2 + q.z ^ 2 = qnormSq q from rfl]
  rw [div_self (ne_of_gt hs), Real.sqrt_one]

theorem qnorm_inc (g : Vec3) (dt : ℝ) :
    1 ≤ qnorm (⟨1, g.x * dt / 2, g.y * dt / 2, g.z * dt / 2⟩ : Quat) := by
  have h1 : (1 : ℝ) ≤ qnormSq ⟨1, g.x * dt / 2, g.y * dt / 2, g.z * dt / 2⟩ := by
    unfold qnormSq
    dsimp only
    nlinarith [sq_nonneg (g.x * dt / 2), sq_nonneg (g.y * dt / 2), sq_nonneg (g.z * dt / 2)]
  calc (1 : ℝ) = Real.sqrt 1 := Real.sqrt_one.symm
    _ ≤ _ := Real.sqrt_le_sqrt h1

theorem orientationStep_norm (q : Quat) (g : Vec3) (dt : ℝ) (h : qnorm q = 1) :
    qnorm (orientationStep q g dt) = 1 := by
  unfold orientationStep
  have hinc : qnorm (qnormalize ⟨1, g.x * dt / 2, g.y * dt / 2, g.z * dt / 2⟩) = 1 :=
    qnorm_qnormalize _ (lt_of_lt_of_le (by norm_num) (qnorm_inc g dt))
  have hmul : qnorm (qmul q (qnormalize ⟨1, g.x * dt / 2, g.y * dt / 2, g.z * dt / 2⟩)) = 1 := by
    rw [qnorm_mul, h, hinc, one_mul]
  exact qnorm_qnormalize _ (by rw [hmul]; norm_num)

/-- C2: for any sequence of update calls the orientation quaternion keeps unit
norm (exactly 1 in real arithmetic, hence within 1e-6 of 1.0).
Modelled from the spec: the quaternion-based orientation integrator
(spec section 4.4, class MadgwickDeadReckoning) is referenced by
src/imu_dead_reckoning.py but omitted from the provided sources, so the
integrator is embedded from the spec's own words. -/
theorem C2_unit_norm (steps : List (Vec3 × ℝ)) :
    |qnorm (orientationRun steps) - 1| ≤ 1e-6 := by
  have h : qnorm (orientationRun steps) = 1 := by
    unfold orientationRun
    have haux : ∀ (l : List (Vec3 × ℝ)) (q : Quat), qnorm q = 1 →
        qnorm (l.foldl (fun q gd => orientationStep q gd.1 gd.2) q) = 1 := by
      intro l
      induction l with
      | nil => intro q h; exact h
      | cons a r ih => intro q h; exact ih _ (orientationStep_norm _ _ _ h)
    apply haux
    unfold qnorm qnormSq
    dsimp only
    rw [show (1 : ℝ) ^ 2 + 0 ^ 2 + 0 ^ 2 + 0 ^ 2 = 1 from by norm_num, Real.sqrt_one]
  rw [h]
  norm_num

end

end ImuDP
